import Mathlib

/-!
Verification of `migrate_sqlite_to_postgres.py` (brake-chat-infrastructure).

The script copies rows table by table from a SQLite database into a
PostgreSQL database.  We embed the script shallowly:

* `Val` models a SQL/Python value (NULL, integer, text, boolean).
* `SourceRow` models a `sqlite3.Row`: field lookup by name, with a
  presence test (`'k' in row.keys()`).
* `PgDB` models the destination database as a map from table name to the
  list of rows inserted so far; `insertRec` models
  `INSERT ... ON CONFLICT (...) DO NOTHING`.
* Each `migrate_<table>` routine of the script becomes a record builder
  `build<Table>` (the per-row tuple construction, `none` = a raised
  exception such as a missing field) plus a `TSpec` describing its
  destination table, conflict-key positions, whether the routine is
  wrapped in `try/except` (optional), and its fetch (`SELECT`).
* `step`/`runTables`/`program` model `main()` including the per-table
  commit, the `try/except` isolation of optional tables, the exit codes
  and the connection lifecycle.
-/

set_option autoImplicit false

namespace Migrate

/-- A SQL / Python value as handled by the script. -/
inductive Val where
  | null
  | int (i : Int)
  | str (s : String)
  | bool (b : Bool)
  deriving DecidableEq, Repr

/-- Python truthiness (`bool(v)`) for the values the script coerces. -/
def truthy : Val → Bool
  | .null => false
  | .int i => i != 0
  | .str s => s != ""
  | .bool b => b

/-- A `sqlite3.Row`: an association of field names to values. -/
abbrev SourceRow := List (String × Val)

/-- `row[k]` — `some` value if the field is present, `none` models the
exception raised on a missing field. -/
def rowGet (r : SourceRow) (k : String) : Option Val :=
  (r.find? (fun p => p.1 = k)).map (·.2)

/-- `'k' in row.keys()`. -/
def hasKey (r : SourceRow) (k : String) : Bool :=
  (rowGet r k).isSome

/-- `row[k] if 'k' in row.keys() else None` — the guarded optional-column
access used all over the script. -/
def optField (r : SourceRow) (k : String) : Val :=
  (rowGet r k).getD .null

/-- `bool(v) if v is not None else d` — coercion of an already-fetched
value, as in `active` (auth) and `archived` (chat). -/
def coerceBoolD (v : Val) (d : Bool) : Val :=
  if v = .null then .bool d else .bool (truthy v)

/-- `bool(row[k]) if k in row.keys() and row[k] is not None else d` —
the presence-guarded boolean coercion, as in `pinned`, `is_active`,
`is_global`. -/
def coerceBoolOpt (r : SourceRow) (k : String) (d : Bool) : Val :=
  match rowGet r k with
  | some v => if v = .null then .bool d else .bool (truthy v)
  | none => .bool d

/-- A SQLite table: declared columns and stored rows. -/
structure STable where
  cols : List String
  rows : List SourceRow
  deriving DecidableEq, Repr

/-- The source database: named tables. -/
abbrev SqliteDB := List (String × STable)

def lookupTable (db : SqliteDB) (t : String) : Option STable :=
  (db.find? (fun p => p.1 = t)).map (·.2)

/-- `SELECT * FROM t` — fails (`none`) when the table does not exist. -/
def selectStar (db : SqliteDB) (t : String) : Option (List SourceRow) :=
  (lookupTable db t).map (·.rows)

/-- `SELECT c1, ..., cn FROM t` — fails when the table does not exist or
lacks one of the named columns. -/
def selectCols (db : SqliteDB) (t : String) (cs : List String) : Option (List SourceRow) :=
  match lookupTable db t with
  | none => none
  | some tb => if cs.all (fun c => tb.cols.contains c) then some tb.rows else none

/-- The destination database: for each table name, the rows present. -/
abbrev PgDB := String → List (List Val)

/-- The conflict key of a record: the values at the key positions. -/
def keyOf (key : List Nat) (rec : List Val) : List (Option Val) :=
  key.map (fun i => rec.get? i)

/-- Does some existing row share the conflict key of `rec`? -/
def hasConflict (rows : List (List Val)) (key : List Nat) (rec : List Val) : Bool :=
  rows.any (fun r => keyOf key r = keyOf key rec)

/-- `INSERT INTO tbl ... ON CONFLICT (key) DO NOTHING`. -/
def insertRec (pg : PgDB) (tbl : String) (key : List Nat) (rec : List Val) : PgDB :=
  fun t =>
    if t = tbl then
      (if hasConflict (pg tbl) key rec then pg tbl else pg tbl ++ [rec])
    else pg t

/-! ## Per-table record builders (the bodies of the `for row in rows` loops) -/

/-- `migrate_auth`, lines 51-56: direct accesses plus
`active = bool(row['active']) if row['active'] is not None else True`. -/
def buildAuth (r : SourceRow) : Option (List Val) :=
  (rowGet r "id").bind fun id =>
  (rowGet r "email").bind fun email =>
  (rowGet r "password").bind fun pw =>
  (rowGet r "active").bind fun act =>
  some [id, email, pw, coerceBoolD act true]

/-- `migrate_user`, lines 70-82: eleven direct accesses, `oauth_sub`
guarded by a presence check. -/
def buildUser (r : SourceRow) : Option (List Val) :=
  (rowGet r "id").bind fun id =>
  (rowGet r "name").bind fun nm =>
  (rowGet r "email").bind fun email =>
  (rowGet r "role").bind fun role =>
  (rowGet r "profile_image_url").bind fun pimg =>
  (rowGet r "last_active_at").bind fun laa =>
  (rowGet r "updated_at").bind fun upd =>
  (rowGet r "created_at").bind fun cre =>
  (rowGet r "api_key").bind fun apik =>
  (rowGet r "settings").bind fun st =>
  (rowGet r "info").bind fun info =>
  some [id, nm, email, role, pimg, laa, upd, cre, apik, st, info,
        optField r "oauth_sub"]

/-- `migrate_chat`, lines 96-113: `archived` is fetched unguarded
(line 97), `pinned` is presence-guarded (line 98), `share_id`, `meta`,
`folder_id` are presence-guarded optional columns. -/
def buildChat (r : SourceRow) : Option (List Val) :=
  (rowGet r "archived").bind fun arch =>
  (rowGet r "id").bind fun id =>
  (rowGet r "user_id").bind fun uid =>
  (rowGet r "title").bind fun title =>
  (rowGet r "chat").bind fun chat =>
  (rowGet r "created_at").bind fun cre =>
  (rowGet r "updated_at").bind fun upd =>
  some [id, uid, title, chat, coerceBoolD arch false, cre, upd,
        optField r "share_id", coerceBoolOpt r "pinned" false,
        optField r "meta", optField r "folder_id"]

/-- Line 156: `row['data'] if 'data' in row.keys() else (row['meta'] if
'meta' in row.keys() else None)`. -/
def tagMeta (r : SourceRow) : Val :=
  match rowGet r "data" with
  | some v => v
  | none => optField r "meta"

/-- `migrate_tag`, lines 150-163. -/
def buildTag (r : SourceRow) : Option (List Val) :=
  (rowGet r "id").bind fun id =>
  (rowGet r "name").bind fun nm =>
  some [id, nm, optField r "user_id", tagMeta r]

/-- `migrate_chatidtag`, lines 177-186. -/
def buildChatIdTag (r : SourceRow) : Option (List Val) :=
  (rowGet r "id").bind fun id =>
  (rowGet r "tag_name").bind fun tn =>
  (rowGet r "chat_id").bind fun cid =>
  (rowGet r "user_id").bind fun uid =>
  some [id, tn, cid, uid, optField r "timestamp"]

/-- `migrate_document`, lines 127-136: seven direct accesses. -/
def buildDocument (r : SourceRow) : Option (List Val) :=
  (rowGet r "collection_name").bind fun cn =>
  (rowGet r "name").bind fun nm =>
  (rowGet r "title").bind fun title =>
  (rowGet r "filename").bind fun fn =>
  (rowGet r "content").bind fun ct =>
  (rowGet r "user_id").bind fun uid =>
  (rowGet r "timestamp").bind fun ts =>
  some [cn, nm, title, fn, ct, uid, ts]

/-- `migrate_file`, lines 201-217: `id` direct, the rest guarded. -/
def buildFile (r : SourceRow) : Option (List Val) :=
  (rowGet r "id").bind fun id =>
  some [id, optField r "user_id", optField r "hash", optField r "filename",
        optField r "data", optField r "meta", optField r "created_at",
        optField r "updated_at", optField r "path"]

/-- `migrate_model`, lines 235-255. -/
def buildModel (r : SourceRow) : Option (List Val) :=
  (rowGet r "id").bind fun id =>
  some [id, optField r "user_id", optField r "base_model_id",
        optField r "name", optField r "params", optField r "meta",
        optField r "updated_at", optField r "created_at",
        coerceBoolOpt r "is_active" true, optField r "access_control"]

/-- `migrate_prompt`, lines 273-285. -/
def buildPrompt (r : SourceRow) : Option (List Val) :=
  (rowGet r "command").bind fun cmd =>
  some [cmd, optField r "user_id", optField r "title",
        optField r "content", optField r "timestamp"]

/-- `migrate_tool`, lines 303-321. -/
def buildTool (r : SourceRow) : Option (List Val) :=
  (rowGet r "id").bind fun id =>
  some [id, optField r "user_id", optField r "name", optField r "content",
        optField r "specs", optField r "meta", optField r "valves",
        optField r "updated_at", optField r "created_at",
        optField r "access_control"]

/-- `migrate_knowledge`, lines 339-356. -/
def buildKnowledge (r : SourceRow) : Option (List Val) :=
  (rowGet r "id").bind fun id =>
  some [id, optField r "user_id", optField r "name",
        optField r "description", optField r "data", optField r "meta",
        optField r "updated_at", optField r "created_at",
        optField r "access_control"]

/-- `migrate_function`, lines 374-395. -/
def buildFunction (r : SourceRow) : Option (List Val) :=
  (rowGet r "id").bind fun id =>
  some [id, optField r "user_id", optField r "name", optField r "type",
        optField r "content", optField r "meta",
        coerceBoolOpt r "is_active" true, coerceBoolOpt r "is_global" false,
        optField r "updated_at", optField r "created_at"]

/-! ## Table migration descriptions and the run orchestration -/

/-- One `migrate_<table>` routine: destination table name (also the name
printed in the progress log), conflict-key positions in the record,
whether the routine wraps its body in `try/except` (optional table), the
`SELECT` it issues, the per-row record builder, and the destination
column list of its `INSERT`. -/
structure TSpec where
  tbl : String
  key : List Nat
  optional : Bool
  fetch : SqliteDB → Option (List SourceRow)
  build : SourceRow → Option (List Val)
  destCols : List String

def authSpec : TSpec :=
  { tbl := "auth", key := [0], optional := false
    fetch := fun db => selectCols db "auth" ["id", "email", "password", "active"]
    build := buildAuth
    destCols := ["id", "email", "password", "active"] }

def userSpec : TSpec :=
  { tbl := "user", key := [0], optional := false
    fetch := fun db => selectStar db "user"
    build := buildUser
    destCols := ["id", "name", "email", "role", "profile_image_url",
                 "last_active_at", "updated_at", "created_at", "api_key",
                 "settings", "info", "oauth_sub"] }

def chatSpec : TSpec :=
  { tbl := "chat", key := [0], optional := false
    fetch := fun db => selectStar db "chat"
    build := buildChat
    destCols := ["id", "user_id", "title", "chat", "archived", "created_at",
                 "updated_at", "share_id", "pinned", "meta", "folder_id"] }

def tagSpec : TSpec :=
  { tbl := "tag", key := [0, 2], optional := false
    fetch := fun db => selectStar db "tag"
    build := buildTag
    destCols := ["id", "name", "user_id", "meta"] }

def chatidtagSpec : TSpec :=
  { tbl := "chatidtag", key := [0], optional := false
    fetch := fun db => selectStar db "chatidtag"
    build := buildChatIdTag
    destCols := ["id", "tag_name", "chat_id", "user_id", "timestamp"] }

def documentSpec : TSpec :=
  { tbl := "document", key := [0], optional := false
    fetch := fun db => selectCols db "document"
      ["collection_name", "name", "title", "filename", "content", "user_id", "timestamp"]
    build := buildDocument
    destCols := ["collection_name", "name", "title", "filename", "content",
                 "user_id", "timestamp"] }

def fileSpec : TSpec :=
  { tbl := "file", key := [0], optional := true
    fetch := fun db => selectStar db "file"
    build := buildFile
    destCols := ["id", "user_id", "hash", "filename", "data", "meta",
                 "created_at", "updated_at", "path"] }

def modelSpec : TSpec :=
  { tbl := "model", key := [0], optional := true
    fetch := fun db => selectStar db "model"
    build := buildModel
    destCols := ["id", "user_id", "base_model_id", "name", "params", "meta",
                 "updated_at", "created_at", "is_active", "access_control"] }

def promptSpec : TSpec :=
  { tbl := "prompt", key := [0], optional := true
    fetch := fun db => selectStar db "prompt"
    build := buildPrompt
    destCols := ["command", "user_id", "title", "content", "timestamp"] }

def toolSpec : TSpec :=
  { tbl := "tool", key := [0], optional := true
    fetch := fun db => selectStar db "tool"
    build := buildTool
    destCols := ["id", "user_id", "name", "content", "specs", "meta",
                 "valves", "updated_at", "created_at", "access_control"] }

def knowledgeSpec : TSpec :=
  { tbl := "knowledge", key := [0], optional := true
    fetch := fun db => selectStar db "knowledge"
    build := buildKnowledge
    destCols := ["id", "user_id", "name", "description", "data", "meta",
                 "updated_at", "created_at", "access_control"] }

def functionSpec : TSpec :=
  { tbl := "function", key := [0], optional := true
    fetch := fun db => selectStar db "function"
    build := buildFunction
    destCols := ["id", "user_id", "name", "type", "content", "meta",
                 "is_active", "is_global", "updated_at", "created_at"] }

/-- The table order of `main()`, lines 427-438 (parents before children). -/
def specs : List TSpec :=
  [authSpec, userSpec, chatSpec, tagSpec, chatidtagSpec, documentSpec,
   fileSpec, modelSpec, promptSpec, toolSpec, knowledgeSpec, functionSpec]

/-- The `for row in rows` loop of one routine: build each record and
insert it; the loop stops at the first row whose construction raises
(`false` result = an exception escaped the loop). -/
def insertLoop (tbl : String) (key : List Nat) (b : SourceRow → Option (List Val)) :
    List SourceRow → PgDB → PgDB × Bool
  | [], pg => (pg, true)
  | r :: rs, pg =>
    match b r with
    | none => (pg, false)
    | some rec => insertLoop tbl key b rs (insertRec pg tbl key rec)

/-- State of the run: `pg` is the destination connection's view
(including inserts not yet committed), `committed` is what a transaction
commit has made durable, `counts` the per-table row counts logged,
`trace` the tables whose migration was started, `err` whether a fatal
(uncaught) exception is propagating. -/
structure RunState where
  pg : PgDB
  committed : PgDB
  counts : List (String × Nat)
  trace : List String
  err : Bool

/-- One `migrate_<table>(sqlite_conn, pg_conn)` call inside `main()`:
skipped entirely when a fatal error is already propagating; otherwise
fetch, insert row by row, and on success `pg_conn.commit()` (which also
commits any inserts left pending by a previously failed optional table).
A failure in an optional routine is caught by its `try/except` (run
continues, no commit, 0 rows counted); in a mandatory routine it makes
the run fatal. -/
def step (src : SqliteDB) (s : RunState) (sp : TSpec) : RunState :=
  if s.err then s else
  let s1 := { s with trace := s.trace ++ [sp.tbl] }
  match sp.fetch src with
  | none =>
    if sp.optional then { s1 with counts := s1.counts ++ [(sp.tbl, 0)] }
    else { s1 with err := true }
  | some rows =>
    match insertLoop sp.tbl sp.key sp.build rows s.pg with
    | (pg1, true) =>
      { s1 with pg := pg1, committed := pg1,
                counts := s1.counts ++ [(sp.tbl, rows.length)] }
    | (pg1, false) =>
      if sp.optional then { s1 with pg := pg1, counts := s1.counts ++ [(sp.tbl, 0)] }
      else { s1 with pg := pg1, err := true }

/-- The table sequence of `main()` run from a fresh pair of connections
over destination state `dest`. -/
def runTables (src : SqliteDB) (dest : PgDB) : RunState :=
  specs.foldl (step src) { pg := dest, committed := dest, counts := [], trace := [], err := false }

/-- The observable outcome of one invocation of the script. `dest` is
the destination row set that survives (committed work only: closing or
abandoning the connection discards pending inserts). `acquired` records
whether the two database connections were established, `closed` whether
the script executed its `close()` calls (lines 445-446). -/
structure Outcome where
  exitCode : Nat
  dest : PgDB
  counts : List (String × Nat)
  trace : List String
  acquired : Bool
  closed : Bool

/-- The script's environment: whether `POSTGRES_PASSWORD` is set,
whether `webui.db` exists, whether each connection attempt succeeds, and
the source database contents. -/
structure Env where
  passwordSet : Bool
  fileExists : Bool
  sqliteOk : Bool
  pgOk : Bool
  src : SqliteDB

/-- The whole script: the module-level password check (lines 20-23),
then `main()` — source file check (lines 410-413), connections
(lines 420-421), the table sequence, the success banner and `close()`
calls, and the `except` handlers that exit with code 1. -/
def program (env : Env) (dest : PgDB) : Outcome :=
  if env.passwordSet = false then
    { exitCode := 1, dest := dest, counts := [], trace := [], acquired := false, closed := false }
  else if env.fileExists = false then
    { exitCode := 1, dest := dest, counts := [], trace := [], acquired := false, closed := false }
  else if env.sqliteOk = false ∨ env.pgOk = false then
    { exitCode := 1, dest := dest, counts := [], trace := [], acquired := false, closed := false }
  else
    let s := runTables env.src dest
    if s.err then
      { exitCode := 1, dest := s.committed, counts := s.counts, trace := s.trace,
        acquired := true, closed := false }
    else
      { exitCode := 0, dest := s.committed, counts := s.counts, trace := s.trace,
        acquired := true, closed := true }

/-! ## Source-determined view of a run

Whether a table's migration succeeds, and which records it attempts to
insert, depend only on the source database — never on the destination
state.  `tableIns`/`tableOk` extract these, and `schedStep` replays the
commit discipline of `step` on lists of pending/committed inserts. -/

/-- One attempted insert: destination table, conflict-key positions, record. -/
abbrev Ins := String × List Nat × List Val

def applyOne (pg : PgDB) (i : Ins) : PgDB :=
  insertRec pg i.1 i.2.1 i.2.2

def applyIns (l : List Ins) (pg : PgDB) : PgDB :=
  l.foldl applyOne pg

/-- The records a routine builds, in order, up to the first failing row. -/
def buildRecs (b : SourceRow → Option (List Val)) : List SourceRow → List (List Val) × Bool
  | [] => ([], true)
  | r :: rs =>
    match b r with
    | none => ([], false)
    | some rec => (rec :: (buildRecs b rs).1, (buildRecs b rs).2)

/-- The inserts one table's routine attempts, as a function of the source. -/
def tableIns (sp : TSpec) (src : SqliteDB) : List Ins :=
  match sp.fetch src with
  | none => []
  | some rows => ((buildRecs sp.build rows).1).map (fun rec => (sp.tbl, sp.key, rec))

/-- Whether one table's routine runs to completion, as a function of the source. -/
def tableOk (sp : TSpec) (src : SqliteDB) : Bool :=
  match sp.fetch src with
  | none => false
  | some rows => (buildRecs sp.build rows).2

/-- Replay of `step` on (committed inserts, pending inserts, fatal flag). -/
def schedStep (src : SqliteDB) (a : List Ins × List Ins × Bool) (sp : TSpec) :
    List Ins × List Ins × Bool :=
  if a.2.2 then a else
  if tableOk sp src then (a.1 ++ a.2.1 ++ tableIns sp src, [], false)
  else if sp.optional then (a.1, a.2.1 ++ tableIns sp src, false)
  else (a.1, a.2.1 ++ tableIns sp src, true)

/-- The inserts that end up committed by a full run, determined by the
source alone. -/
def runIns (src : SqliteDB) : List Ins :=
  (specs.foldl (schedStep src) ([], [], false)).1

/-! ## Properties of skip-on-conflict insertion -/

/-- A skip-on-duplicate insert whose conflict key is already present
leaves the destination untouched. -/
lemma insertRec_of_conflict {pg : PgDB} {tbl : String} {key : List Nat} {rec : List Val}
    (h : hasConflict (pg tbl) key rec = true) : insertRec pg tbl key rec = pg := by
  funext t
  by_cases ht : t = tbl <;> simp [insertRec, ht, h]

/-- An insert only ever appends rows. -/
lemma insertRec_extends (pg : PgDB) (tbl : String) (key : List Nat) (rec : List Val)
    (t : String) : ∃ tl, insertRec pg tbl key rec t = pg t ++ tl := by
  by_cases ht : t = tbl
  · subst ht
    by_cases hc : hasConflict (pg t) key rec
    · exact ⟨[], by simp [insertRec, hc]⟩
    · exact ⟨[rec], by simp [insertRec, hc]⟩
  · exact ⟨[], by simp [insertRec, ht]⟩

lemma applyIns_nil (pg : PgDB) : applyIns [] pg = pg := rfl

lemma applyIns_cons (i : Ins) (l : List Ins) (pg : PgDB) :
    applyIns (i :: l) pg = applyIns l (applyOne pg i) := rfl

lemma applyIns_append (a b : List Ins) (pg : PgDB) :
    applyIns (a ++ b) pg = applyIns b (applyIns a pg) := by
  simp [applyIns, List.foldl_append]

/-- A batch of inserts only ever appends rows. -/
lemma applyIns_extends (l : List Ins) (pg : PgDB) (t : String) :
    ∃ tl, applyIns l pg t = pg t ++ tl := by
  induction l generalizing pg with
  | nil => exact ⟨[], by simp [applyIns_nil]⟩
  | cons i rest ih =>
    obtain ⟨t1, h1⟩ := insertRec_extends pg i.1 i.2.1 i.2.2 t
    obtain ⟨t2, h2⟩ := ih (applyOne pg i)
    exact ⟨t1 ++ t2, by rw [applyIns_cons, h2, applyOne, h1, List.append_assoc]⟩

lemma hasConflict_append {rows tl : List (List Val)} {key : List Nat} {rec : List Val}
    (h : hasConflict rows key rec = true) : hasConflict (rows ++ tl) key rec = true := by
  simp only [hasConflict, List.any_append, Bool.or_eq_true]
  exact Or.inl h

/-- After inserting `rec`, its conflict key is present. -/
lemma insertRec_establishes (pg : PgDB) (tbl : String) (key : List Nat) (rec : List Val) :
    hasConflict (insertRec pg tbl key rec tbl) key rec = true := by
  by_cases hc : hasConflict (pg tbl) key rec = true
  · simp [insertRec, hc]
  · have hc' : hasConflict (pg tbl) key rec = false := by simpa using hc
    have harr : insertRec pg tbl key rec tbl = pg tbl ++ [rec] := by
      simp [insertRec, hc']
    rw [harr]
    simp [hasConflict, List.any_append]

lemma hasConflict_applyIns {pg : PgDB} {t : String} {k : List Nat} {r : List Val}
    (l : List Ins) (h : hasConflict (pg t) k r = true) :
    hasConflict (applyIns l pg t) k r = true := by
  obtain ⟨tl, htl⟩ := applyIns_extends l pg t
  rw [htl]
  exact hasConflict_append h

/-- Replaying a batch of inserts on any state that already resulted from
that batch changes nothing: every record's key is already present. -/
lemma applyIns_replay : ∀ (l : List Ins) (pg pg' : PgDB),
    pg' = applyIns l pg → applyIns l pg' = pg' := by
  intro l
  induction l with
  | nil => intro pg pg' h; simp [applyIns_nil]
  | cons i rest ih =>
    intro pg pg' h
    rw [applyIns_cons] at h
    have hfix : applyOne pg' i = pg' := by
      have h1 : hasConflict (applyOne pg i i.1) i.2.1 i.2.2 = true :=
        insertRec_establishes pg i.1 i.2.1 i.2.2
      have h2 : hasConflict (pg' i.1) i.2.1 i.2.2 = true := by
        rw [h]; exact hasConflict_applyIns rest h1
      exact insertRec_of_conflict h2
    rw [applyIns_cons, hfix]
    exact ih (applyOne pg i) pg' h

/-- Idempotence of a committed insert list. -/
lemma applyIns_idem (l : List Ins) (pg : PgDB) :
    applyIns l (applyIns l pg) = applyIns l pg :=
  applyIns_replay l pg (applyIns l pg) rfl

/-! ## The run as an application of source-determined inserts -/

/-- The insert loop equals: build the records (stopping at the first
failure), then apply them as skip-on-duplicate inserts. -/
lemma insertLoop_eq (tbl : String) (key : List Nat) (b : SourceRow → Option (List Val)) :
    ∀ (rows : List SourceRow) (pg : PgDB),
      insertLoop tbl key b rows pg =
        (applyIns (((buildRecs b rows).1).map (fun rec => (tbl, key, rec))) pg,
         (buildRecs b rows).2) := by
  intro rows
  induction rows with
  | nil => intro pg; simp [insertLoop, buildRecs, applyIns_nil]
  | cons r rs ih =>
    intro pg
    cases hb : b r with
    | none => simp [insertLoop, buildRecs, hb, applyIns_nil]
    | some rec =>
      simp only [insertLoop, buildRecs, hb]
      rw [ih (insertRec pg tbl key rec)]
      rfl

/-- The routine completes iff every row of the table builds. -/
lemma buildRecs_ok_eq (b : SourceRow → Option (List Val)) :
    ∀ rows : List SourceRow, (buildRecs b rows).2 = rows.all (fun r => (b r).isSome) := by
  intro rows
  induction rows with
  | nil => rfl
  | cons r rs ih =>
    simp only [buildRecs, List.all_cons]
    cases hb : b r with
    | none => rfl
    | some rec => simpa using ih

/-- A step on a fatally-failed state does nothing. -/
lemma step_err {src : SqliteDB} {s : RunState} {sp : TSpec} (h : s.err = true) :
    step src s sp = s := by
  simp [step, h]

lemma foldl_step_err {src : SqliteDB} {s : RunState} (l : List TSpec) (h : s.err = true) :
    l.foldl (step src) s = s := by
  induction l with
  | nil => rfl
  | cons sp rest ih => rw [List.foldl_cons, step_err h, ih]

/-- One step of the simulation: a single table migration corresponds to
one `schedStep` on (committed, pending, fatal) insert lists. -/
lemma step_sim {src : SqliteDB} {dest : PgDB} {s : RunState}
    {a : List Ins × List Ins × Bool} (sp : TSpec)
    (h1 : s.pg = applyIns (a.1 ++ a.2.1) dest)
    (h2 : s.committed = applyIns a.1 dest)
    (h3 : s.err = a.2.2) :
    (step src s sp).pg =
      applyIns ((schedStep src a sp).1 ++ (schedStep src a sp).2.1) dest ∧
    (step src s sp).committed = applyIns (schedStep src a sp).1 dest ∧
    (step src s sp).err = (schedStep src a sp).2.2 := by
  by_cases he : s.err = true
  · have ha : a.2.2 = true := h3 ▸ he
    rw [step_err he, schedStep, if_pos ha]
    exact ⟨h1, h2, h3⟩
  · have he' : s.err = false := by simpa using he
    have ha : a.2.2 = false := h3 ▸ he'
    cases hf : sp.fetch src with
    | none =>
      have hok : tableOk sp src = false := by simp [tableOk, hf]
      have hins : tableIns sp src = [] := by simp [tableIns, hf]
      cases ho : sp.optional <;>
        simp [step, schedStep, he', ha, hf, hok, hins, ho, h1, h2]
    | some rows =>
      have hok : tableOk sp src = (buildRecs sp.build rows).2 := by
        simp [tableOk, hf]
      have hins : tableIns sp src =
          ((buildRecs sp.build rows).1).map (fun rec => (sp.tbl, sp.key, rec)) := by
        simp [tableIns, hf]
      cases hb : (buildRecs sp.build rows).2 with
      | true =>
        simp [step, schedStep, he', ha, hf, insertLoop_eq, hb, hok, hins,
              h1, h2, applyIns_append, List.append_assoc]
      | false =>
        cases ho : sp.optional <;>
          simp [step, schedStep, he', ha, hf, insertLoop_eq, hb, hok, hins, ho,
                h1, h2, applyIns_append, List.append_assoc]

/-- The simulation, extended along the table sequence. -/
lemma foldl_step_sim : ∀ (l : List TSpec) (src : SqliteDB) (dest : PgDB)
    (s : RunState) (a : List Ins × List Ins × Bool),
    s.pg = applyIns (a.1 ++ a.2.1) dest →
    s.committed = applyIns a.1 dest →
    s.err = a.2.2 →
    (l.foldl (step src) s).pg =
      applyIns ((l.foldl (schedStep src) a).1 ++ (l.foldl (schedStep src) a).2.1) dest ∧
    (l.foldl (step src) s).committed = applyIns (l.foldl (schedStep src) a).1 dest ∧
    (l.foldl (step src) s).err = (l.foldl (schedStep src) a).2.2 := by
  intro l
  induction l with
  | nil => intro src dest s a h1 h2 h3; exact ⟨h1, h2, h3⟩
  | cons sp rest ih =>
    intro src dest s a h1 h2 h3
    rw [List.foldl_cons, List.foldl_cons]
    obtain ⟨g1, g2, g3⟩ := @step_sim src dest s a sp h1 h2 h3
    exact ih src dest _ _ g1 g2 g3

/-- The committed destination state of a full table run is the
source-determined insert list applied to the initial destination. -/
lemma runTables_committed (src : SqliteDB) (dest : PgDB) :
    (runTables src dest).committed = applyIns (runIns src) dest := by
  have h := foldl_step_sim specs src dest
    { pg := dest, committed := dest, counts := [], trace := [], err := false }
    ([], [], false) (by simp [applyIns_nil]) rfl rfl
  exact h.2.1

/-- Whether the run ends in a fatal state is source-determined. -/
lemma runTables_err (src : SqliteDB) (dest : PgDB) :
    (runTables src dest).err = (specs.foldl (schedStep src) ([], [], false)).2.2 := by
  have h := foldl_step_sim specs src dest
    { pg := dest, committed := dest, counts := [], trace := [], err := false }
    ([], [], false) (by simp [applyIns_nil]) rfl rfl
  exact h.2.2

/-! ## Error, trace and count bookkeeping of the run -/

/-- The fatal flag after one step: set exactly by a mandatory table that
does not run to completion. -/
lemma step_err_eq {src : SqliteDB} {s : RunState} (sp : TSpec) (he : s.err = false) :
    (step src s sp).err = (!sp.optional && !tableOk sp src) := by
  cases hf : sp.fetch src with
  | none =>
    have hok : tableOk sp src = false := by simp [tableOk, hf]
    cases ho : sp.optional <;> simp [step, he, hf, hok, ho]
  | some rows =>
    have hok : tableOk sp src = (buildRecs sp.build rows).2 := by simp [tableOk, hf]
    cases hb : (buildRecs sp.build rows).2 with
    | true => simp [step, he, hf, insertLoop_eq, hb, hok]
    | false => cases ho : sp.optional <;> simp [step, he, hf, insertLoop_eq, hb, hok, ho]

/-- The fatal flag of a run: some mandatory table fails. -/
lemma foldl_step_err_eq {src : SqliteDB} : ∀ (l : List TSpec) (s : RunState),
    (l.foldl (step src) s).err =
      (s.err || l.any (fun sp => !sp.optional && !tableOk sp src)) := by
  intro l
  induction l with
  | nil => intro s; simp
  | cons sp rest ih =>
    intro s
    rw [List.foldl_cons, ih]
    by_cases he : s.err = true
    · simp [step_err he, he]
    · have he' : s.err = false := by simpa using he
      rw [step_err_eq sp he', he']
      simp [List.any_cons]

/-- Steps only append to the count log. -/
lemma step_counts_extends (src : SqliteDB) (s : RunState) (sp : TSpec) :
    ∃ x, (step src s sp).counts = s.counts ++ x := by
  by_cases he : s.err = true
  · exact ⟨[], by simp [step_err he]⟩
  · have he' : s.err = false := by simpa using he
    cases hf : sp.fetch src with
    | none =>
      cases ho : sp.optional
      · exact ⟨[], by simp [step, he', hf, ho]⟩
      · exact ⟨[(sp.tbl, 0)], by simp [step, he', hf, ho]⟩
    | some rows =>
      cases hb : (buildRecs sp.build rows).2 with
      | true =>
        exact ⟨[(sp.tbl, rows.length)], by simp [step, he', hf, insertLoop_eq, hb]⟩
      | false =>
        cases ho : sp.optional
        · exact ⟨[], by simp [step, he', hf, insertLoop_eq, hb, ho]⟩
        · exact ⟨[(sp.tbl, 0)], by simp [step, he', hf, insertLoop_eq, hb, ho]⟩

/-- A logged count survives the rest of the run. -/
lemma foldl_counts_mono {src : SqliteDB} {q : String × Nat} :
    ∀ (l : List TSpec) (s : RunState), q ∈ s.counts → q ∈ (l.foldl (step src) s).counts := by
  intro l
  induction l with
  | nil => intro s h; exact h
  | cons sp rest ih =>
    intro s h
    rw [List.foldl_cons]
    apply ih
    obtain ⟨x, hx⟩ := step_counts_extends src s sp
    rw [hx]
    exact List.mem_append_left x h

/-- When every mandatory table of the remaining sequence succeeds, the
run visits every remaining table, stays non-fatal, and logs count 0 for
each failing (hence optional) table. -/
lemma foldl_step_ok {src : SqliteDB} : ∀ (l : List TSpec) (s : RunState),
    (∀ sp ∈ l, sp.optional = false → tableOk sp src = true) →
    s.err = false →
    (l.foldl (step src) s).err = false ∧
    (l.foldl (step src) s).trace = s.trace ++ l.map (·.tbl) ∧
    (∀ sp ∈ l, tableOk sp src = false → (sp.tbl, 0) ∈ (l.foldl (step src) s).counts) := by
  intro l
  induction l with
  | nil => intro s _ he; exact ⟨he, by simp, by simp⟩
  | cons sp rest ih =>
    intro s hmand he
    rw [List.foldl_cons]
    have hsp := hmand sp (List.mem_cons_self sp rest)
    have hrest : ∀ q ∈ rest, q.optional = false → tableOk q src = true :=
      fun q hq => hmand q (List.mem_cons_of_mem sp hq)
    have he1 : (step src s sp).err = false := by
      rw [step_err_eq sp he]
      cases ho : sp.optional with
      | true => simp
      | false => simp [hsp ho]
    have htr : (step src s sp).trace = s.trace ++ [sp.tbl] := by
      cases hf : sp.fetch src with
      | none => cases ho : sp.optional <;> simp [step, he, hf, ho]
      | some rows =>
        cases hb : (buildRecs sp.build rows).2 with
        | true => simp [step, he, hf, insertLoop_eq, hb]
        | false => cases ho : sp.optional <;> simp [step, he, hf, insertLoop_eq, hb, ho]
    obtain ⟨ih1, ih2, ih3⟩ := ih (step src s sp) hrest he1
    refine ⟨ih1, by rw [ih2, htr]; simp, ?_⟩
    intro q hq hqok
    rcases List.mem_cons.mp hq with rfl | hq'
    · have ho : q.optional = true := by
        by_contra hoc
        have : tableOk q src = true := hsp (by simpa using hoc)
        rw [this] at hqok
        exact absurd hqok (by simp)
      have hcnt : (q.tbl, 0) ∈ (step src s q).counts := by
        cases hf : q.fetch src with
        | none => simp [step, he, hf, ho]
        | some rows =>
          have hb : (buildRecs q.build rows).2 = false := by
            have := hqok
            simp only [tableOk, hf] at this
            exact this
          simp [step, he, hf, insertLoop_eq, hb, ho]
      exact foldl_counts_mono rest (step src s q) hcnt
    · exact ih3 q hq' hqok

/-- A mandatory table that fails on a live state: fatal flag set, table
announced in the trace, commits untouched. -/
lemma step_mandatory_fail {src : SqliteDB} {s : RunState} (sp : TSpec)
    (he : s.err = false) (ho : sp.optional = false) (hok : tableOk sp src = false) :
    (step src s sp).err = true ∧
    (step src s sp).trace = s.trace ++ [sp.tbl] ∧
    (step src s sp).committed = s.committed ∧
    (step src s sp).counts = s.counts := by
  cases hf : sp.fetch src with
  | none => simp [step, he, hf, ho]
  | some rows =>
    have hb : (buildRecs sp.build rows).2 = false := by
      simp only [tableOk, hf] at hok
      exact hok
    simp [step, he, hf, insertLoop_eq, hb, ho]

/-! ## The script's outcome in terms of the run -/

/-- With the startup checks passed, the outcome's components come from
the table run: committed destination, logs, and exit code / `close()`
discipline driven by the fatal flag. -/
lemma program_components (env : Env) (dest : PgDB)
    (hp : env.passwordSet = true) (hf : env.fileExists = true)
    (hs : env.sqliteOk = true) (hg : env.pgOk = true) :
    (program env dest).dest = (runTables env.src dest).committed ∧
    (program env dest).counts = (runTables env.src dest).counts ∧
    (program env dest).trace = (runTables env.src dest).trace ∧
    (program env dest).acquired = true ∧
    (program env dest).exitCode = (if (runTables env.src dest).err = true then 1 else 0) ∧
    (program env dest).closed = (if (runTables env.src dest).err = true then false else true) := by
  cases herr : (runTables env.src dest).err <;>
    simp [program, hp, hf, hs, hg, herr]

/-- Failing mandatory tables, as a decidable scan of the spec list. -/
lemma runTables_err_any (src : SqliteDB) (dest : PgDB) :
    (runTables src dest).err = specs.any (fun sp => !sp.optional && !tableOk sp src) := by
  rw [runTables, foldl_step_err_eq]
  rfl

lemma no_mandatory_failure_iff (src : SqliteDB) :
    specs.any (fun sp => !sp.optional && !tableOk sp src) = false ↔
    (∀ sp ∈ specs, sp.optional = false → tableOk sp src = true) := by
  constructor
  · intro h sp hsp hopt
    by_contra hok
    have hok' : tableOk sp src = false := by simpa using hok
    have : specs.any (fun sp => !sp.optional && !tableOk sp src) = true :=
      List.any_eq_true.mpr ⟨sp, hsp, by simp [hopt, hok']⟩
    rw [h] at this
    exact absurd this (by simp)
  · intro h
    by_contra hany
    have hany' : specs.any (fun sp => !sp.optional && !tableOk sp src) = true := by
      simpa using hany
    obtain ⟨sp, hsp, hb⟩ := List.any_eq_true.mp hany'
    have hb' : sp.optional = false ∧ tableOk sp src = false := by
      simpa using hb
    have hok := hb'.2
    rw [h sp hsp hb'.1] at hok
    exact absurd hok (by simp)

/-! ## Witness fixtures: small concrete environments -/

/-- A source auth row (the end-to-end scenario of the specification). -/
def wAuthRow : SourceRow :=
  [("id", .str "u1"), ("email", .str "a@x.com"), ("password", .str "h"), ("active", .int 1)]

/-- A source database holding all six mandatory tables (auth has one
row, the others are empty) and none of the optional tables. -/
def wSrc : SqliteDB :=
  [("auth", ⟨["id", "email", "password", "active"], [wAuthRow]⟩),
   ("user", ⟨[], []⟩), ("chat", ⟨[], []⟩), ("tag", ⟨[], []⟩),
   ("chatidtag", ⟨[], []⟩),
   ("document", ⟨["collection_name", "name", "title", "filename", "content",
                  "user_id", "timestamp"], []⟩)]

def wEnv : Env := ⟨true, true, true, true, wSrc⟩

/-- An environment whose source database is empty: even `auth` is missing. -/
def wEnvNoAuth : Env := ⟨true, true, true, true, []⟩

/-- An empty destination database. -/
def wDest : PgDB := fun _ => []

/-! ## Claims -/

/-- C1: Idempotence of the full migration — for every source database
contents and every destination state, running the full migration twice
against the same (fresh source, destination) pair produces the same
destination row set as running it once, and every insert uses
skip-on-duplicate semantics: a destination row whose conflict key
already exists is left untouched, not overwritten. -/
theorem full_migration_idempotent (env : Env) (dest : PgDB) :
    (program env ((program env dest).dest)).dest = (program env dest).dest ∧
    (∀ (pg : PgDB) (tbl : String) (key : List Nat) (rec : List Val),
      hasConflict (pg tbl) key rec = true → insertRec pg tbl key rec = pg) := by
  refine ⟨?_, fun pg tbl key rec h => insertRec_of_conflict h⟩
  by_cases hp : env.passwordSet = true
  · by_cases hf : env.fileExists = true
    · by_cases hs : env.sqliteOk = true
      · by_cases hg : env.pgOk = true
        · have h1 := (program_components env dest hp hf hs hg).1
          have h2 := (program_components env ((program env dest).dest) hp hf hs hg).1
          rw [h2, h1, runTables_committed, runTables_committed, applyIns_idem]
        · have hg' : env.pgOk = false := by simpa using hg
          simp [program, hp, hf, hs, hg']
      · have hs' : env.sqliteOk = false := by simpa using hs
        simp [program, hp, hf, hs']
    · have hf' : env.fileExists = false := by simpa using hf
      simp [program, hp, hf']
  · have hp' : env.passwordSet = false := by simpa using hp
    simp [program, hp']

def wConflictPg : PgDB := fun _ => [[Val.int 1]]

theorem full_migration_idempotent_witness :
    (program wEnv ((program wEnv wDest).dest)).dest = (program wEnv wDest).dest ∧
    insertRec wConflictPg "t" [0] [Val.int 1, Val.int 2] = wConflictPg :=
  ⟨(full_migration_idempotent wEnv wDest).1,
   (full_migration_idempotent wEnv wDest).2 wConflictPg "t" [0] [Val.int 1, Val.int 2]
     (by decide)⟩

/-! Per-builder record lengths, for the structural invariant C2. -/

lemma buildAuth_length {r : SourceRow} {rec : List Val}
    (h : buildAuth r = some rec) : rec.length = 4 := by
  simp only [buildAuth, Option.bind_eq_some, Option.some.injEq] at h
  obtain ⟨a, -, b, -, c, -, d, -, rfl⟩ := h
  rfl

lemma buildUser_length {r : SourceRow} {rec : List Val}
    (h : buildUser r = some rec) : rec.length = 12 := by
  simp only [buildUser, Option.bind_eq_some, Option.some.injEq] at h
  obtain ⟨a, -, b, -, c, -, d, -, e, -, f, -, g, -, k, -, m, -, n, -, p, -, rfl⟩ := h
  rfl

lemma buildChat_length {r : SourceRow} {rec : List Val}
    (h : buildChat r = some rec) : rec.length = 11 := by
  simp only [buildChat, Option.bind_eq_some, Option.some.injEq] at h
  obtain ⟨a, -, b, -, c, -, d, -, e, -, f, -, g, -, rfl⟩ := h
  rfl

lemma buildTag_length {r : SourceRow} {rec : List Val}
    (h : buildTag r = some rec) : rec.length = 4 := by
  simp only [buildTag, Option.bind_eq_some, Option.some.injEq] at h
  obtain ⟨a, -, b, -, rfl⟩ := h
  rfl

lemma buildChatIdTag_length {r : SourceRow} {rec : List Val}
    (h : buildChatIdTag r = some rec) : rec.length = 5 := by
  simp only [buildChatIdTag, Option.bind_eq_some, Option.some.injEq] at h
  obtain ⟨a, -, b, -, c, -, d, -, rfl⟩ := h
  rfl

lemma buildDocument_length {r : SourceRow} {rec : List Val}
    (h : buildDocument r = some rec) : rec.length = 7 := by
  simp only [buildDocument, Option.bind_eq_some, Option.some.injEq] at h
  obtain ⟨a, -, b, -, c, -, d, -, e, -, f, -, g, -, rfl⟩ := h
  rfl

lemma buildFile_length {r : SourceRow} {rec : List Val}
    (h : buildFile r = some rec) : rec.length = 9 := by
  simp only [buildFile, Option.bind_eq_some, Option.some.injEq] at h
  obtain ⟨a, -, rfl⟩ := h
  rfl

lemma buildModel_length {r : SourceRow} {rec : List Val}
    (h : buildModel r = some rec) : rec.length = 10 := by
  simp only [buildModel, Option.bind_eq_some, Option.some.injEq] at h
  obtain ⟨a, -, rfl⟩ := h
  rfl

lemma buildPrompt_length {r : SourceRow} {rec : List Val}
    (h : buildPrompt r = some rec) : rec.length = 5 := by
  simp only [buildPrompt, Option.bind_eq_some, Option.some.injEq] at h
  obtain ⟨a, -, rfl⟩ := h
  rfl

lemma buildTool_length {r : SourceRow} {rec : List Val}
    (h : buildTool r = some rec) : rec.length = 10 := by
  simp only [buildTool, Option.bind_eq_some, Option.some.injEq] at h
  obtain ⟨a, -, rfl⟩ := h
  rfl

lemma buildKnowledge_length {r : SourceRow} {rec : List Val}
    (h : buildKnowledge r = some rec) : rec.length = 9 := by
  simp only [buildKnowledge, Option.bind_eq_some, Option.some.injEq] at h
  obtain ⟨a, -, rfl⟩ := h
  rfl

lemma buildFunction_length {r : SourceRow} {rec : List Val}
    (h : buildFunction r = some rec) : rec.length = 10 := by
  simp only [buildFunction, Option.bind_eq_some, Option.some.injEq] at h
  obtain ⟨a, -, rfl⟩ := h
  rfl

/-- C2: Structural invariant — for every table migration routine and
every source row it processes, the destination record it builds has
exactly as many values as the routine's destination column list (e.g.
the chat insert always supplies 11 values for its 11 columns). -/
theorem destination_record_length (sp : TSpec) (hsp : sp ∈ specs)
    (r : SourceRow) (rec : List Val) (h : sp.build r = some rec) :
    rec.length = sp.destCols.length := by
  simp only [specs, List.mem_cons, List.not_mem_nil, or_false] at hsp
  rcases hsp with rfl | rfl | rfl | rfl | rfl | rfl | rfl | rfl | rfl | rfl | rfl | rfl
  · exact buildAuth_length h
  · exact buildUser_length h
  · exact buildChat_length h
  · exact buildTag_length h
  · exact buildChatIdTag_length h
  · exact buildDocument_length h
  · exact buildFile_length h
  · exact buildModel_length h
  · exact buildPrompt_length h
  · exact buildTool_length h
  · exact buildKnowledge_length h
  · exact buildFunction_length h

theorem destination_record_length_witness :
    ([Val.str "u1", Val.str "a@x.com", Val.str "h", Val.bool true] : List Val).length
      = authSpec.destCols.length :=
  destination_record_length authSpec (List.mem_cons_self authSpec _) wAuthRow
    [Val.str "u1", Val.str "a@x.com", Val.str "h", Val.bool true] (by decide)

/-- C3: Presence-vs-null for the chat table's `pinned` column — a row
with no `pinned` field resolves to false, a present `pinned = 0`
resolves to false, a present `pinned = 1` resolves to true; the resolved
value is what the chat record carries at the `pinned` position. -/
theorem chat_pinned_resolution (r r0 r1 : SourceRow) :
    (hasKey r "pinned" = false → coerceBoolOpt r "pinned" false = .bool false) ∧
    (rowGet r0 "pinned" = some (.int 0) → coerceBoolOpt r0 "pinned" false = .bool false) ∧
    (rowGet r1 "pinned" = some (.int 1) → coerceBoolOpt r1 "pinned" false = .bool true) ∧
    (∀ rec, buildChat r = some rec → rec.get? 8 = some (coerceBoolOpt r "pinned" false)) := by
  refine ⟨?_, ?_, ?_, ?_⟩
  · intro h
    have hn : rowGet r "pinned" = none := by
      simp only [hasKey] at h
      cases hx : rowGet r "pinned" with
      | none => rfl
      | some v => rw [hx] at h; simp at h
    simp [coerceBoolOpt, hn]
  · intro h
    simp [coerceBoolOpt, h, truthy]
  · intro h
    simp [coerceBoolOpt, h, truthy]
  · intro rec h
    simp only [buildChat, Option.bind_eq_some, Option.some.injEq] at h
    obtain ⟨a, -, b, -, c, -, d, -, e, -, f, -, g, -, rfl⟩ := h
    rfl

def wChatPinned0 : SourceRow :=
  [("id", .str "c"), ("user_id", .str "u"), ("title", .null), ("chat", .null),
   ("archived", .int 0), ("created_at", .int 1), ("updated_at", .int 1),
   ("pinned", .int 0)]

def wChatPinned1 : SourceRow :=
  [("id", .str "c"), ("user_id", .str "u"), ("title", .null), ("chat", .null),
   ("archived", .int 0), ("created_at", .int 1), ("updated_at", .int 1),
   ("pinned", .int 1)]

def wChatNoPinned : SourceRow :=
  [("id", .str "c"), ("user_id", .str "u"), ("title", .null), ("chat", .null),
   ("archived", .int 0), ("created_at", .int 1), ("updated_at", .int 1)]

theorem chat_pinned_resolution_witness :
    coerceBoolOpt wChatNoPinned "pinned" false = .bool false ∧
    coerceBoolOpt wChatPinned0 "pinned" false = .bool false ∧
    coerceBoolOpt wChatPinned1 "pinned" false = .bool true ∧
    [Val.str "c", Val.str "u", Val.null, Val.null, Val.bool false, Val.int 1,
     Val.int 1, Val.null, Val.bool false, Val.null, Val.null].get? 8 =
      some (coerceBoolOpt wChatNoPinned "pinned" false) := by
  obtain ⟨h1, h2, h3, h4⟩ := chat_pinned_resolution wChatNoPinned wChatPinned0 wChatPinned1
  exact ⟨h1 (by decide), h2 (by decide), h3 (by decide), h4 _ (by decide)⟩

/-- C4 counterexample: on a tag row carrying both `data` and `meta`, the
code resolves the destination `meta` column to the `data` value — the
primary field of the fallback chain is `data`, not `meta` as claimed. -/
theorem tag_meta_counterexample :
    tagMeta [("id", Val.str "t"), ("name", Val.str "n"),
             ("data", Val.str "d"), ("meta", Val.str "m")] = Val.str "d" ∧
    Val.str "d" ≠ Val.str "m" := by
  decide

/-- C4 (amended): the tag `meta` rule prefers `data` and falls back to
`meta` — first present field wins; a row with `data` but no `meta`
resolves to the `data` value, a row with both resolves to the `data`
value, and the resolved value is what the tag record carries at the
`meta` position. -/
theorem tag_meta_resolution (r r2 : SourceRow) :
    (∀ v, rowGet r "data" = some v → tagMeta r = v) ∧
    (rowGet r2 "data" = none → tagMeta r2 = optField r2 "meta") ∧
    (∀ rec, buildTag r = some rec → rec.get? 3 = some (tagMeta r)) := by
  refine ⟨?_, ?_, ?_⟩
  · intro v h
    simp [tagMeta, h]
  · intro h
    simp [tagMeta, h]
  · intro rec h
    simp only [buildTag, Option.bind_eq_some, Option.some.injEq] at h
    obtain ⟨a, -, b, -, rfl⟩ := h
    rfl

def wTagBoth : SourceRow :=
  [("id", .str "t"), ("name", .str "n"), ("data", .str "d"), ("meta", .str "m")]

def wTagDataOnly : SourceRow :=
  [("id", .str "t"), ("name", .str "n"), ("data", .str "d")]

theorem tag_meta_resolution_witness :
    tagMeta wTagBoth = Val.str "d" ∧
    tagMeta [("id", Val.str "t")] = optField [("id", Val.str "t")] "meta" ∧
    [Val.str "t", Val.str "n", Val.null, Val.str "d"].get? 3 = some (tagMeta wTagDataOnly) := by
  obtain ⟨h1, h2, -⟩ := tag_meta_resolution wTagBoth [("id", Val.str "t")]
  obtain ⟨-, -, h3⟩ := tag_meta_resolution wTagDataOnly [("id", Val.str "t")]
  exact ⟨h1 (Val.str "d") (by decide), h2 (by decide), h3 _ (by decide)⟩

/-- A chat row that carries every column the chat insert needs except
`archived`. -/
def wChatNoArchived : SourceRow :=
  [("id", .str "c1"), ("user_id", .str "u1"), ("title", .str "t"),
   ("chat", .str "x"), ("created_at", .int 1), ("updated_at", .int 2),
   ("pinned", .int 1), ("share_id", .null), ("meta", .null), ("folder_id", .null)]

/-- C5 counterexample: a chat row with no `archived` field — the routine
raises (the unguarded `row['archived']` access) instead of substituting
the default false, even though every other field is present. -/
theorem chat_archived_counterexample :
    buildChat wChatNoArchived = none ∧
    hasKey wChatNoArchived "archived" = false ∧
    hasKey wChatNoArchived "id" = true ∧ hasKey wChatNoArchived "user_id" = true ∧
    hasKey wChatNoArchived "title" = true ∧ hasKey wChatNoArchived "chat" = true ∧
    hasKey wChatNoArchived "created_at" = true ∧
    hasKey wChatNoArchived "updated_at" = true := by
  decide

/-- C5 (amended): for the chat `archived` column, a present null value
resolves to the default false and a present non-null value is coerced
with truthy-numeric semantics without error, but a row lacking the
`archived` field entirely makes the chat row construction raise. -/
theorem chat_archived_resolution (r rv rn : SourceRow) :
    (rowGet r "archived" = some .null →
      ∀ rec, buildChat r = some rec → rec.get? 4 = some (.bool false)) ∧
    (∀ v, rowGet rv "archived" = some v → v ≠ .null →
      ∀ rec, buildChat rv = some rec → rec.get? 4 = some (.bool (truthy v))) ∧
    (hasKey rn "archived" = false → buildChat rn = none) := by
  refine ⟨?_, ?_, ?_⟩
  · intro h rec hb
    simp only [buildChat, Option.bind_eq_some, Option.some.injEq] at hb
    obtain ⟨a, ha, b, -, c, -, d, -, e, -, f, -, g, -, rfl⟩ := hb
    rw [h] at ha
    obtain rfl : Val.null = a := Option.some.inj ha
    simp [coerceBoolD]
  · intro v h hv rec hb
    simp only [buildChat, Option.bind_eq_some, Option.some.injEq] at hb
    obtain ⟨a, ha, b, -, c, -, d, -, e, -, f, -, g, -, rfl⟩ := hb
    rw [h] at ha
    obtain rfl : v = a := Option.some.inj ha
    simp [coerceBoolD, hv]
  · intro h
    have hn : rowGet rn "archived" = none := by
      simp only [hasKey] at h
      cases hx : rowGet rn "archived" with
      | none => rfl
      | some v => rw [hx] at h; simp at h
    simp [buildChat, hn]

def wChatArchNull : SourceRow :=
  [("id", .str "c"), ("user_id", .str "u"), ("title", .null), ("chat", .null),
   ("archived", .null), ("created_at", .int 1), ("updated_at", .int 1)]

def wChatArch1 : SourceRow :=
  [("id", .str "c"), ("user_id", .str "u"), ("title", .null), ("chat", .null),
   ("archived", .int 1), ("created_at", .int 1), ("updated_at", .int 1)]

theorem chat_archived_resolution_witness :
    [Val.str "c", Val.str "u", Val.null, Val.null, Val.bool false, Val.int 1,
     Val.int 1, Val.null, Val.bool false, Val.null, Val.null].get? 4 =
      some (Val.bool false) ∧
    [Val.str "c", Val.str "u", Val.null, Val.null, Val.bool true, Val.int 1,
     Val.int 1, Val.null, Val.bool false, Val.null, Val.null].get? 4 =
      some (Val.bool (truthy (Val.int 1))) ∧
    buildChat wChatNoArchived = none := by
  obtain ⟨h1, h2, h3⟩ := chat_archived_resolution wChatArchNull wChatArch1 wChatNoArchived
  exact ⟨h1 (by decide) _ (by decide), h2 (Val.int 1) (by decide) (by decide) _ (by decide),
         h3 (by decide)⟩

/-- C6: Optional-table failure isolation — any failure inside the
migration of an optional table (the source lacking the table included)
is caught there: the run stays non-fatal, that table's count is logged
as 0, every table of the sequence is still visited, and the run reports
overall success (exit code 0) when the mandatory tables succeed. -/
theorem optional_failure_isolated (env : Env) (dest : PgDB) (sp : TSpec)
    (hp : env.passwordSet = true) (hf : env.fileExists = true)
    (hs : env.sqliteOk = true) (hg : env.pgOk = true)
    (hmem : sp ∈ specs) (_ho : sp.optional = true)
    (hmand : ∀ q ∈ specs, q.optional = false → tableOk q env.src = true)
    (hfail : tableOk sp env.src = false) :
    (program env dest).exitCode = 0 ∧
    (sp.tbl, 0) ∈ (program env dest).counts ∧
    (program env dest).trace = specs.map (·.tbl) := by
  obtain ⟨hdest, hcounts, htrace, -, hexit, -⟩ := program_components env dest hp hf hs hg
  obtain ⟨he, ht, hc⟩ := foldl_step_ok specs
    { pg := dest, committed := dest, counts := [], trace := [], err := false } hmand rfl
  refine ⟨?_, ?_, ?_⟩
  · rw [hexit, runTables, he]
    rfl
  · rw [hcounts, runTables]
    exact hc sp hmem hfail
  · rw [htrace, runTables, ht]
    rfl

theorem optional_failure_isolated_witness :
    (program wEnv wDest).exitCode = 0 ∧
    ("file", 0) ∈ (program wEnv wDest).counts ∧
    (program wEnv wDest).trace = specs.map (·.tbl) :=
  optional_failure_isolated wEnv wDest fileSpec rfl rfl rfl rfl
    (by simp [specs]) rfl (by decide) (by decide)

/-- C7: Mandatory-table failure propagation — a failure inside the
migration of a mandatory table (all tables before it having run without
a fatal error) makes the run exit with code 1, the trace stops at that
table (no subsequent table is attempted), and the destination keeps
exactly what the prior tables committed. -/
theorem mandatory_failure_aborts (env : Env) (dest : PgDB)
    (pre post : List TSpec) (sp : TSpec)
    (hp : env.passwordSet = true) (hf : env.fileExists = true)
    (hs : env.sqliteOk = true) (hg : env.pgOk = true)
    (hsplit : specs = pre ++ sp :: post)
    (ho : sp.optional = false)
    (hpre : ∀ q ∈ pre, q.optional = false → tableOk q env.src = true)
    (hfail : tableOk sp env.src = false) :
    (program env dest).exitCode = 1 ∧
    (program env dest).trace = pre.map (·.tbl) ++ [sp.tbl] ∧
    (program env dest).dest =
      (pre.foldl (step env.src)
        { pg := dest, committed := dest, counts := [], trace := [], err := false }).committed := by
  obtain ⟨hdest, -, htrace, -, hexit, -⟩ := program_components env dest hp hf hs hg
  have hrun : runTables env.src dest =
      post.foldl (step env.src)
        (step env.src
          (pre.foldl (step env.src)
            { pg := dest, committed := dest, counts := [], trace := [], err := false }) sp) := by
    rw [runTables, hsplit, List.foldl_append, List.foldl_cons]
  set s1 := pre.foldl (step env.src)
    { pg := dest, committed := dest, counts := [], trace := [], err := false } with hs1
  obtain ⟨he1, ht1, -⟩ := foldl_step_ok pre
    { pg := dest, committed := dest, counts := [], trace := [], err := false } hpre rfl
  obtain ⟨ge, gt, gc, -⟩ := @step_mandatory_fail env.src _ sp he1 ho hfail
  have hpost : post.foldl (step env.src) (step env.src s1 sp) = step env.src s1 sp :=
    foldl_step_err post ge
  refine ⟨?_, ?_, ?_⟩
  · rw [hexit, hrun, hpost, ge]
    rfl
  · rw [htrace, hrun, hpost, gt, ht1]
    rfl
  · rw [hdest, hrun, hpost, gc]

theorem mandatory_failure_aborts_witness :
    (program wEnvNoAuth wDest).exitCode = 1 ∧
    (program wEnvNoAuth wDest).trace = ["auth"] ∧
    (program wEnvNoAuth wDest).dest = wDest :=
  mandatory_failure_aborts wEnvNoAuth wDest []
    [userSpec, chatSpec, tagSpec, chatidtagSpec, documentSpec, fileSpec, modelSpec,
     promptSpec, toolSpec, knowledgeSpec, functionSpec] authSpec
    rfl rfl rfl rfl rfl rfl (by simp) (by decide)

/-- C8 counterexample: a run that establishes both connections and then
aborts on the missing mandatory `auth` table exits on an error path with
the `close()` calls never executed — connections are not released on
every exit path. -/
theorem connection_close_counterexample :
    (program wEnvNoAuth wDest).acquired = true ∧
    (program wEnvNoAuth wDest).exitCode = 1 ∧
    (program wEnvNoAuth wDest).closed = false := by
  decide

/-- C8 (amended): both connections are acquired once at the start of the
run exactly when the startup checks pass, and the script executes its
`close()` calls exactly on the full-success path (exit code 0); on every
error path it exits without closing them. -/
theorem connection_close_on_success_only (env : Env) (dest : PgDB) :
    ((program env dest).closed = true ↔ (program env dest).exitCode = 0) ∧
    (program env dest).acquired =
      (env.passwordSet && env.fileExists && env.sqliteOk && env.pgOk) := by
  by_cases hp : env.passwordSet = true
  · by_cases hf : env.fileExists = true
    · by_cases hs : env.sqliteOk = true
      · by_cases hg : env.pgOk = true
        · obtain ⟨-, -, -, hacq, hexit, hclosed⟩ := program_components env dest hp hf hs hg
          cases herr : (runTables env.src dest).err <;>
            simp [hexit, hclosed, hacq, herr, hp, hf, hs, hg]
        · have hg' : env.pgOk = false := by simpa using hg
          simp [program, hp, hf, hs, hg']
      · have hs' : env.sqliteOk = false := by simpa using hs
        simp [program, hp, hf, hs']
    · have hf' : env.fileExists = false := by simpa using hf
      simp [program, hp, hf']
  · have hp' : env.passwordSet = false := by simpa using hp
    simp [program, hp']

theorem connection_close_on_success_only_witness :
    (program wEnv wDest).closed = true ∧
    (program wEnv wDest).acquired =
      (wEnv.passwordSet && wEnv.fileExists && wEnv.sqliteOk && wEnv.pgOk) :=
  ⟨(connection_close_on_success_only wEnv wDest).1.mpr (by decide),
   (connection_close_on_success_only wEnv wDest).2⟩

/-- C9: Exit-code contract — the script exits 0 exactly when the
password is set, the source file exists, both connections succeed and
every mandatory table migrates; every other outcome exits 1 (the exit
code is always 0 or 1); and an unset password refuses to start the run
before anything else: exit 1 with no table attempted, no connection
acquired and the destination untouched. -/
theorem exit_code_contract (env : Env) (dest : PgDB) :
    ((program env dest).exitCode = 0 ↔
      env.passwordSet = true ∧ env.fileExists = true ∧ env.sqliteOk = true ∧
      env.pgOk = true ∧
      (∀ sp ∈ specs, sp.optional = false → tableOk sp env.src = true)) ∧
    ((program env dest).exitCode = 0 ∨ (program env dest).exitCode = 1) ∧
    (env.passwordSet = false →
      (program env dest).exitCode = 1 ∧ (program env dest).trace = [] ∧
      (program env dest).acquired = false ∧ (program env dest).dest = dest) := by
  by_cases hp : env.passwordSet = true
  · have hp3 : ¬env.passwordSet = false := by simp [hp]
    by_cases hf : env.fileExists = true
    · by_cases hs : env.sqliteOk = true
      · by_cases hg : env.pgOk = true
        · obtain ⟨-, -, -, -, hexit, -⟩ := program_components env dest hp hf hs hg
          have herr := runTables_err_any env.src dest
          refine ⟨?_, ?_, fun hc => absurd hc hp3⟩
          · constructor
            · intro h0
              refine ⟨hp, hf, hs, hg, ?_⟩
              apply (no_mandatory_failure_iff env.src).mp
              by_contra hany
              have hany' : specs.any (fun sp => !sp.optional && !tableOk sp env.src) = true := by
                simpa using hany
              rw [hexit, herr, hany'] at h0
              exact absurd h0 (by simp)
            · rintro ⟨-, -, -, -, hmand⟩
              rw [hexit, herr, (no_mandatory_failure_iff env.src).mpr hmand]
              rfl
          · rw [hexit]
            cases (runTables env.src dest).err <;> simp
        · have hg' : env.pgOk = false := by simpa using hg
          refine ⟨?_, ?_, fun hc => absurd hc hp3⟩ <;>
            simp [program, hp, hf, hs, hg']
      · have hs' : env.sqliteOk = false := by simpa using hs
        refine ⟨?_, ?_, fun hc => absurd hc hp3⟩ <;>
          simp [program, hp, hf, hs']
    · have hf' : env.fileExists = false := by simpa using hf
      refine ⟨?_, ?_, fun hc => absurd hc hp3⟩ <;>
        simp [program, hp, hf']
  · have hp' : env.passwordSet = false := by simpa using hp
    refine ⟨?_, ?_, fun _ => ?_⟩ <;> simp [program, hp']

theorem exit_code_contract_witness :
    (program wEnv wDest).exitCode = 0 ∧
    (program ⟨false, true, true, true, wSrc⟩ wDest).exitCode = 1 :=
  ⟨(exit_code_contract wEnv wDest).1.mpr ⟨rfl, rfl, rfl, rfl, by decide⟩,
   ((exit_code_contract ⟨false, true, true, true, wSrc⟩ wDest).2.2 rfl).1⟩

/-- The destination columns of the user insert whose source fields are
read unguarded (all but `oauth_sub`). -/
def userRequiredFields : List String :=
  ["id", "name", "email", "role", "profile_image_url", "last_active_at",
   "updated_at", "created_at", "api_key", "settings", "info"]

/-- A user record only builds when every unguarded field is present. -/
lemma buildUser_some_keys {r : SourceRow} {rec : List Val}
    (h : buildUser r = some rec) :
    ∀ f ∈ userRequiredFields, hasKey r f = true := by
  simp only [buildUser, Option.bind_eq_some, Option.some.injEq] at h
  obtain ⟨a, ha, b, hb, c, hc, d, hd, e, he, f, hf, g, hg, k, hk, m, hm, n, hn, p, hp, -⟩ := h
  intro q hq
  simp only [userRequiredFields, List.mem_cons, List.not_mem_nil, or_false] at hq
  rcases hq with rfl | rfl | rfl | rfl | rfl | rfl | rfl | rfl | rfl | rfl | rfl <;>
    simp [hasKey, ha, hb, hc, hd, he, hf, hg, hk, hm, hn, hp]

/-- C10: the user table tolerates absence only of `oauth_sub` — a row
lacking any other destination field fails to build; a row with all
unguarded fields present builds, with a missing `oauth_sub` resolving to
null; and since `user` is mandatory, a user row that fails to build
aborts the whole run with exit code 1. -/
theorem user_required_field_enforcement (r rq : SourceRow) (env : Env) (dest : PgDB) :
    (∀ f ∈ userRequiredFields, hasKey r f = false → buildUser r = none) ∧
    ((∀ f ∈ userRequiredFields, hasKey rq f = true) →
      ∃ rec, buildUser rq = some rec ∧
        (hasKey rq "oauth_sub" = false → rec.get? 11 = some Val.null)) ∧
    (env.passwordSet = true → env.fileExists = true → env.sqliteOk = true →
      env.pgOk = true →
      ∀ tb, lookupTable env.src "user" = some tb →
      ∀ r3 ∈ tb.rows, buildUser r3 = none →
      (program env dest).exitCode = 1) := by
  refine ⟨?_, ?_, ?_⟩
  · intro f hf hk
    cases hb : buildUser r with
    | none => rfl
    | some rec =>
      have := buildUser_some_keys hb f hf
      rw [hk] at this
      exact absurd this (by simp)
  · intro hq
    have hv : ∀ f ∈ userRequiredFields, ∃ v, rowGet rq f = some v := by
      intro f hf
      have := hq f hf
      simp only [hasKey] at this
      exact Option.isSome_iff_exists.mp this
    obtain ⟨v1, h1⟩ := hv "id" (by simp [userRequiredFields])
    obtain ⟨v2, h2⟩ := hv "name" (by simp [userRequiredFields])
    obtain ⟨v3, h3⟩ := hv "email" (by simp [userRequiredFields])
    obtain ⟨v4, h4⟩ := hv "role" (by simp [userRequiredFields])
    obtain ⟨v5, h5⟩ := hv "profile_image_url" (by simp [userRequiredFields])
    obtain ⟨v6, h6⟩ := hv "last_active_at" (by simp [userRequiredFields])
    obtain ⟨v7, h7⟩ := hv "updated_at" (by simp [userRequiredFields])
    obtain ⟨v8, h8⟩ := hv "created_at" (by simp [userRequiredFields])
    obtain ⟨v9, h9⟩ := hv "api_key" (by simp [userRequiredFields])
    obtain ⟨v10, h10⟩ := hv "settings" (by simp [userRequiredFields])
    obtain ⟨v11, h11⟩ := hv "info" (by simp [userRequiredFields])
    refine ⟨[v1, v2, v3, v4, v5, v6, v7, v8, v9, v10, v11, optField rq "oauth_sub"],
            ?_, ?_⟩
    · simp [buildUser, h1, h2, h3, h4, h5, h6, h7, h8, h9, h10, h11]
    · intro hoa
      have hn : rowGet rq "oauth_sub" = none := by
        simp only [hasKey] at hoa
        cases hx : rowGet rq "oauth_sub" with
        | none => rfl
        | some v => rw [hx] at hoa; simp at hoa
      simp [optField, hn]
  · intro hp hf hs hg tb htb r3 hr3 hnone
    obtain ⟨-, -, -, -, hexit, -⟩ := program_components env dest hp hf hs hg
    have hok : tableOk userSpec env.src = false := by
      have hfetch : userSpec.fetch env.src = some tb.rows := by
        simp [userSpec, selectStar, htb]
      simp only [tableOk, hfetch, buildRecs_ok_eq]
      by_contra hall
      have hall' : ∀ x ∈ tb.rows, ¬buildUser x = none := by
        simpa [userSpec] using hall
      exact absurd hnone (hall' r3 hr3)
    have humem : userSpec ∈ specs := by
      unfold specs
      exact List.Mem.tail _ (List.Mem.head _)
    have hone : (!userSpec.optional && !tableOk userSpec env.src) = true := by
      rw [hok]
      rfl
    have hany : specs.any (fun sp => !sp.optional && !tableOk sp env.src) = true :=
      List.any_eq_true.mpr ⟨userSpec, humem, hone⟩
    rw [hexit, runTables_err_any, hany]
    rfl

/-- A user row carrying only an id. -/
def wUserBad : SourceRow := [("id", .str "u9")]

/-- A full user row without `oauth_sub`. -/
def wUserFull : SourceRow :=
  [("id", .str "u1"), ("name", .str "n"), ("email", .str "e"), ("role", .str "admin"),
   ("profile_image_url", .str "p"), ("last_active_at", .int 1), ("updated_at", .int 2),
   ("created_at", .int 3), ("api_key", .null), ("settings", .null), ("info", .null)]

/-- A source database whose user table holds a row missing `name`. -/
def wSrcBadUser : SqliteDB := [("user", ⟨[], [wUserBad]⟩)]

theorem user_required_field_enforcement_witness :
    buildUser wUserBad = none ∧
    (∃ rec, buildUser wUserFull = some rec ∧
      (hasKey wUserFull "oauth_sub" = false → rec.get? 11 = some Val.null)) ∧
    (program ⟨true, true, true, true, wSrcBadUser⟩ wDest).exitCode = 1 := by
  obtain ⟨h1, h2, h3⟩ :=
    user_required_field_enforcement wUserBad wUserFull
      ⟨true, true, true, true, wSrcBadUser⟩ wDest
  exact ⟨h1 "name" (by simp [userRequiredFields]) (by decide),
         h2 (by decide),
         h3 rfl rfl rfl rfl ⟨[], [wUserBad]⟩ (by decide) wUserBad (by decide) (by decide)⟩

end Migrate
